import Mathlib

/-!
Shallow embedding of the registration-form validation and submission logic of
the repository (src/app/utils/validation.ts, src/app/index.tsx,
src/unnamed/part_016 `useFormLogic`, src/unnamed/part_017 `useApi`).

Strings are modelled as `List Char`; JavaScript's `\d` / `\D` character classes
are the ASCII digits, and `\s` (also used by `String.prototype.trim`) is the
ECMAScript WhiteSpace / LineTerminator set.
-/

/-- Membership in the ECMAScript whitespace class `\s` (also the set removed by
`String.prototype.trim`). -/
def isJsWhitespace (c : Char) : Bool :=
  c == '\t' || c == '\n' || c == '\x0b' || c == '\x0c' || c == '\r' || c == ' ' ||
  c == '\u00A0' || c == '\u1680' ||
  (decide ('\u2000' ≤ c) && decide (c ≤ '\u200A')) ||
  c == '\u2028' || c == '\u2029' || c == '\u202F' || c == '\u205F' ||
  c == '\u3000' || c == '\uFEFF'

/-- Membership in the regex digit class `\d`, i.e. the characters kept by
`text.replace(/\D/g, '')`. -/
def isDigitCh (c : Char) : Bool :=
  decide ('0' ≤ c) && decide (c ≤ '9')

/-- Model of `text.replace(/\D/g, '')`: keep exactly the ASCII digits. -/
def digitsOf (s : List Char) : List Char :=
  s.filter isDigitCh

/-- Model of `String.prototype.trim` removing trailing whitespace. -/
def trimEndL (s : List Char) : List Char :=
  (s.reverse.dropWhile isJsWhitespace).reverse

/-- Model of `String.prototype.trim`: drop leading and trailing `\s` characters. -/
def trimL (s : List Char) : List Char :=
  trimEndL (s.dropWhile isJsWhitespace)

/-- Embedding of `formatPhone` (src/app/utils/validation.ts lines 3-8):
strip non-digits, then render according to how many digits remain, using the
JavaScript slices `slice(0,2)`, `slice(2)`, `slice(2,7)`, `slice(7,11)`. -/
def formatPhone (text : List Char) : List Char :=
  let cleaned := digitsOf text
  if cleaned.length ≤ 2 then cleaned
  else if cleaned.length ≤ 6 then
    '(' :: cleaned.take 2 ++ ')' :: ' ' :: cleaned.drop 2
  else
    '(' :: cleaned.take 2 ++ ')' :: ' ' ::
      ((cleaned.drop 2).take 5 ++ '-' :: (cleaned.drop 7).take 4)

/-- Character class `[^\s@]` of the e-mail regex: neither whitespace nor `@`. -/
def emailOk (c : Char) : Bool :=
  !(isJsWhitespace c) && !(c == '@')

/-- Does the list contain a `'.'` at some position that is not the last one?
Auxiliary recognizer for the `[^\s@]+\.[^\s@]+` tail of the e-mail regex. -/
def dotBeforeLast : List Char → Bool
  | [] => false
  | [_] => false
  | c :: rest => c == '.' || dotBeforeLast rest

/-- Does the list contain a `'.'` that has at least one character before it and
at least one after it? -/
def domainHasInnerDot : List Char → Bool
  | [] => false
  | _ :: rest => dotBeforeLast rest

/-- Recognizer for the part of the e-mail regex after the `@`:
`[^\s@]+\.[^\s@]+$`. Since `'.'` itself lies in the class `[^\s@]`, this accepts
exactly the lists of `emailOk` characters containing an inner dot. -/
def checkDomainTail (l : List Char) : Bool :=
  l.all emailOk && domainHasInnerDot l

/-- Recognizer for `[^\s@]*@[^\s@]+\.[^\s@]+$` starting after the first local
character: consume `emailOk` characters until the (unique possible) `@`, then
check the domain tail. -/
def matchLocalRest : List Char → Bool
  | [] => false
  | c :: cs => if c == '@' then checkDomainTail cs else emailOk c && matchLocalRest cs

/-- Embedding of `validateEmail` (src/app/utils/validation.ts lines 10-13):
`/^[^\s@]+@[^\s@]+\.[^\s@]+$/.test(email)`. Because `@` is excluded from every
character class of the regex, the match is driven deterministically by the first
`@` of the string, which this recognizer implements. -/
def validateEmail : List Char → Bool
  | [] => false
  | c :: cs => emailOk c && matchLocalRest cs

/-- The four form fields (`FormData` in src/app/types/theme.ts). -/
structure FormData where
  name : List Char
  phone : List Char
  email : List Char
  password : List Char
deriving DecidableEq, Repr

/-- The per-field error map (`FormErrors`): a key is absent (`none`) when the
field currently has no recorded error. Field order `name, phone, email,
password` is the JavaScript object insertion order of `validateForm`. -/
structure FormErrors where
  name : Option String
  phone : Option String
  email : Option String
  password : Option String
deriving DecidableEq, Repr

/-- Error message for a missing name. -/
def msgNameRequired : String := "Nome é obrigatório"

/-- Error message for a missing phone. -/
def msgPhoneRequired : String := "Telefone é obrigatório"

/-- Error message for a missing e-mail. -/
def msgEmailRequired : String := "Email é obrigatório"

/-- Error message for a syntactically invalid e-mail. -/
def msgEmailInvalid : String := "Email inválido"

/-- Error message for a missing password. -/
def msgPasswordRequired : String := "Senha é obrigatória"

/-- Error message for a password shorter than 6 characters. -/
def msgPasswordShort : String := "Senha deve ter pelo menos 6 caracteres"

/-- The `name` rule of `validateForm`: `if (!data.name.trim()) errors.name = ...`. -/
def nameError (d : FormData) : Option String :=
  if trimL d.name = [] then some msgNameRequired else none

/-- The `phone` rule of `validateForm`: `if (!data.phone.trim()) errors.phone = ...`. -/
def phoneError (d : FormData) : Option String :=
  if trimL d.phone = [] then some msgPhoneRequired else none

/-- The `email` rules of `validateForm`: required after trimming, otherwise the
syntax check runs on the untrimmed string. -/
def emailError (d : FormData) : Option String :=
  if trimL d.email = [] then some msgEmailRequired
  else if validateEmail d.email then none else some msgEmailInvalid

/-- The `password` rules of `validateForm`: the emptiness check trims, the
length check uses the untrimmed `data.password.length`. -/
def passwordError (d : FormData) : Option String :=
  if trimL d.password = [] then some msgPasswordRequired
  else if d.password.length < 6 then some msgPasswordShort else none

/-- Embedding of `validateForm` (src/app/utils/validation.ts lines 15-39):
collect the per-field errors and return `none` exactly when the error object
has no keys (`Object.keys(errors).length > 0` is false). -/
def validateForm (d : FormData) : Option FormErrors :=
  let errors : FormErrors :=
    { name := nameError d, phone := phoneError d
      email := emailError d, password := passwordError d }
  if errors.name.isNone && errors.phone.isNone &&
     errors.email.isNone && errors.password.isNone
  then none else some errors

/-- Field selector, standing for the `keyof FormData` strings. -/
inductive FieldName where
  | name : FieldName
  | phone : FieldName
  | email : FieldName
  | password : FieldName
deriving DecidableEq, Repr

/-- Computed-key record update `{ ...prev, [field]: v }` on `FormData`. -/
def setField (d : FormData) (f : FieldName) (v : List Char) : FormData :=
  match f with
  | .name => { d with name := v }
  | .phone => { d with phone := v }
  | .email => { d with email := v }
  | .password => { d with password := v }

/-- Projection of a `FormData` field by name. -/
def getField (d : FormData) (f : FieldName) : List Char :=
  match f with
  | .name => d.name
  | .phone => d.phone
  | .email => d.email
  | .password => d.password

/-- Model of `delete newErrors[field]` on the error map. -/
def clearError (e : FormErrors) (f : FieldName) : FormErrors :=
  match f with
  | .name => { e with name := none }
  | .phone => { e with phone := none }
  | .email => { e with email := none }
  | .password => { e with password := none }

/-- Projection of a `FormErrors` entry by field name. -/
def getError (e : FormErrors) (f : FieldName) : Option String :=
  match f with
  | .name => e.name
  | .phone => e.phone
  | .email => e.email
  | .password => e.password

/-- The feedback modal state of src/app/index.tsx (`isVisible`, `title`,
`message`). -/
structure ModalState where
  isVisible : Bool
  title : String
  message : String
deriving DecidableEq, Repr

/-- The controller state held by the screen component in src/app/index.tsx:
`formData`, `formErrors`, `loading` and `modal`. -/
structure AppState where
  formData : FormData
  formErrors : FormErrors
  loading : Bool
  modal : ModalState
deriving DecidableEq, Repr

/-- The initial (all-empty) form data. -/
def initialFormData : FormData :=
  { name := [], phone := [], email := [], password := [] }

/-- The initial (all-absent) error map. -/
def noErrors : FormErrors :=
  { name := none, phone := none, email := none, password := none }

/-- The initial controller state of src/app/index.tsx. -/
def initialState : AppState :=
  { formData := initialFormData, formErrors := noErrors, loading := false
    modal := { isVisible := false, title := "", message := "" } }

/-- Embedding of `updateField` (src/app/index.tsx lines 359-369, identical in
src/unnamed/part_016): store `formatPhone value` for the phone field and the
raw value otherwise, and delete any error entry for the edited field. -/
def updateField (s : AppState) (f : FieldName) (value : List Char) : AppState :=
  { s with
    formData := setField s.formData f (if f = .phone then formatPhone value else value)
    formErrors := clearError s.formErrors f }

/-- Embedding of `showModal` (src/app/index.tsx lines 371-377). -/
def showModal (s : AppState) (title message : String) : AppState :=
  { s with modal := { isVisible := true, title := title, message := message } }

/-- Title of the validation-error modal. -/
def validationErrorTitle : String := "Erro de Validação"

/-- Title of the success modal; `hideModal` compares the dismissed title
against it to decide whether to reset the form. -/
def successTitle : String := "Sucesso!"

/-- Message of the success modal. -/
def successMessage : String := "Sua conta foi criada com sucesso. Bem-vindo!"

/-- Title of the server-error modal. -/
def serverErrorTitle : String := "Erro no Servidor"

/-- Message of the server-error modal. -/
def serverErrorMessage : String := "Não foi possível criar sua conta. Tente novamente."

/-- Embedding of `hideModal` (src/app/index.tsx lines 379-390): hide the modal
and, exactly when the dismissed modal's title is the success title, reset the
fields and the error map to their initial empty state. -/
def hideModal (s : AppState) : AppState :=
  let hidden := { s with modal := { s.modal with isVisible := false } }
  if s.modal.title = successTitle then
    { hidden with formData := initialFormData, formErrors := noErrors }
  else hidden

/-- Values of the error object in JavaScript insertion order
(`Object.values(validationErrors)`). -/
def errorValues (e : FormErrors) : List String :=
  [e.name, e.phone, e.email, e.password].filterMap id

/-- Model of `Object.values(validationErrors)[0]`: the first error message in
field order `name, phone, email, password`. -/
def firstErrorMessage (e : FormErrors) : Option String :=
  (errorValues e).head?

/-- Outcome of the (simulated) submission promise. -/
inductive SubmissionOutcome where
  | success : SubmissionOutcome
  | failure : String → SubmissionOutcome
deriving DecidableEq, Repr

/-- Embedding of `handleSubmit` (src/app/index.tsx lines 404-425) as a step
function on the controller state. The awaited promise result is passed in as
`outcome`; the returned `Bool` records whether the submission call was reached.
On validation errors the code stores the errors, shows the validation modal
with the first error message, and returns before any submission; otherwise the
modal and loading flag reflect the settled outcome (the `finally` clause clears
`loading`). -/
def handleSubmit (s : AppState) (outcome : SubmissionOutcome) : AppState × Bool :=
  match validateForm s.formData with
  | some validationErrors =>
    (showModal { s with formErrors := validationErrors }
       validationErrorTitle ((firstErrorMessage validationErrors).getD ""), false)
  | none =>
    let started := { s with loading := true }
    let settled :=
      match outcome with
      | .success => showModal started successTitle successMessage
      | .failure _ => showModal started serverErrorTitle serverErrorMessage
    ({ settled with loading := false }, true)

/-- Reason string of the simulated server failure (src/unnamed/part_017). -/
def simulatedFailureReason : String := "Erro simulado do servidor"

/-- The fixed `setTimeout` delay of the submission simulator, in milliseconds
(src/unnamed/part_017 line 13). -/
def submitDelayMs : Nat := 2500

/-- The delay used for a given submission: a constant, independent of the
submitted data. -/
def submitDelayFor (data : FormData) : Nat :=
  submitDelayMs

/-- Embedding of `useApi.submitForm` (src/unnamed/part_017): given the value
`draw` returned by `Math.random()`, resolve successfully iff `draw > 0.1`,
otherwise reject with the simulated server error. -/
def submitForm (data : FormData) (draw : ℚ) : SubmissionOutcome :=
  if 1/10 < draw then .success else .failure simulatedFailureReason

/-- The password-error entry of a full validation pass, or `none` when the pass
produced no errors at all. -/
def passwordErrorOf (d : FormData) : Option String :=
  match validateForm d with
  | none => none
  | some e => e.password

/-- Shape predicate `(DD) DDDDD-DDDD` written from the spec's words: an area
code of exactly two digits in parentheses, a space, a five-digit prefix, a
hyphen, and a four-digit suffix. -/
def isFullPhoneShape (s : List Char) : Bool :=
  match s with
  | '(' :: a :: b :: ')' :: ' ' :: c1 :: c2 :: c3 :: c4 :: c5 :: '-' ::
      d1 :: d2 :: d3 :: d4 :: [] =>
    [a, b, c1, c2, c3, c4, c5, d1, d2, d3, d4].all isDigitCh
  | _ => false

/-! ## Helper lemmas about `formatPhone` -/

/-- Proof-side view of the body of `formatPhone`, as a function of the cleaned
digit list. -/
def fmtDigits (c : List Char) : List Char :=
  if c.length ≤ 2 then c
  else if c.length ≤ 6 then
    '(' :: c.take 2 ++ ')' :: ' ' :: c.drop 2
  else
    '(' :: c.take 2 ++ ')' :: ' ' ::
      ((c.drop 2).take 5 ++ '-' :: (c.drop 7).take 4)

theorem formatPhone_eq_fmt (s : List Char) : formatPhone s = fmtDigits (digitsOf s) := rfl

theorem mem_digitsOf_digit (s : List Char) : ∀ x ∈ digitsOf s, isDigitCh x = true :=
  fun _ hx => List.of_mem_filter hx

theorem digitsOf_of_all (l : List Char) (h : ∀ x ∈ l, isDigitCh x = true) :
    digitsOf l = l :=
  List.filter_eq_self.mpr h

theorem digitsOf_fmtDigits (c : List Char) (h : ∀ x ∈ c, isDigitCh x = true) :
    digitsOf (fmtDigits c) = if c.length ≤ 6 then c else c.take 11 := by
  have hop : isDigitCh '(' = false := by decide
  have hcl : isDigitCh ')' = false := by decide
  have hsp : isDigitCh ' ' = false := by decide
  have hda : isDigitCh '-' = false := by decide
  have htake : ∀ n, digitsOf (c.take n) = c.take n := fun n =>
    List.filter_eq_self.mpr fun x hx => h x (List.take_subset _ _ hx)
  have hdrop : ∀ n, digitsOf (c.drop n) = c.drop n := fun n =>
    List.filter_eq_self.mpr fun x hx => h x (List.drop_subset _ _ hx)
  have hdt : ∀ m n, digitsOf ((c.drop m).take n) = (c.drop m).take n := fun m n =>
    List.filter_eq_self.mpr fun x hx =>
      h x (List.drop_subset _ _ (List.take_subset _ _ hx))
  unfold fmtDigits
  by_cases h2 : c.length ≤ 2
  · rw [if_pos h2, if_pos (by omega), digitsOf_of_all c h]
  · by_cases h6 : c.length ≤ 6
    · rw [if_neg h2, if_pos h6, if_pos h6]
      have := htake 2
      have := hdrop 2
      simp only [digitsOf, List.filter_append, List.filter_cons, hop, hcl, hsp,
        Bool.false_eq_true, if_false] at *
      rw [htake 2, hdrop 2, List.take_append_drop]
    · rw [if_neg h2, if_neg h6, if_neg h6]
      simp only [digitsOf, List.filter_append, List.filter_cons, hop, hcl, hsp, hda,
        Bool.false_eq_true, if_false] at *
      rw [htake 2, hdt 2 5, hdt 7 4]
      rw [show (11 : Nat) = 2 + 9 by norm_num, List.take_add,
        show (9 : Nat) = 5 + 4 by norm_num, List.take_add, List.drop_drop]

/-- C4: `formatPhone` is idempotent: reformatting an already formatted string
yields the same string, for every input. -/
theorem claim_C4 (s : List Char) : formatPhone (formatPhone s) = formatPhone s := by
  rw [formatPhone_eq_fmt s, formatPhone_eq_fmt (fmtDigits (digitsOf s)),
    digitsOf_fmtDigits (digitsOf s) (mem_digitsOf_digit s)]
  set c := digitsOf s with hc
  by_cases h6 : c.length ≤ 6
  · rw [if_pos h6]
  · rw [if_neg h6]
    have h7 : 7 ≤ (c.take 11).length := by
      simp only [List.length_take]
      omega
    unfold fmtDigits
    rw [if_neg (by omega), if_neg (by omega), if_neg (by omega), if_neg (by omega)]
    rw [List.take_take, List.drop_take, List.take_take, List.drop_take, List.take_take]
    norm_num

/-- C3: `formatPhone` first strips every non-digit character; with at most 2
digits left it returns just those digits (hence digit-only inputs of length at
most 2 are returned unchanged), and with 3 to 6 digits it returns the first two
digits in parentheses, a space, and the remaining digits. -/
theorem claim_C3 :
    (∀ s : List Char, (digitsOf s).length ≤ 2 → formatPhone s = digitsOf s)
    ∧ (∀ s : List Char, s.all isDigitCh = true → s.length ≤ 2 → formatPhone s = s)
    ∧ (∀ s : List Char, 3 ≤ (digitsOf s).length → (digitsOf s).length ≤ 6 →
        formatPhone s = '(' :: (digitsOf s).take 2 ++ ')' :: ' ' :: (digitsOf s).drop 2) := by
  refine ⟨fun s h2 => ?_, fun s hall h2 => ?_, fun s h3 h6 => ?_⟩
  · rw [formatPhone_eq_fmt]
    unfold fmtDigits
    rw [if_pos h2]
  · have hd : digitsOf s = s := digitsOf_of_all s (List.all_eq_true.mp hall)
    rw [formatPhone_eq_fmt]
    unfold fmtDigits
    rw [hd, if_pos h2]
  · rw [formatPhone_eq_fmt]
    unfold fmtDigits
    rw [if_neg (by omega), if_pos h6]

/-- Witness for C3 at concrete inputs: a mixed input with two digits, a
digit-only two-character input, and a four-digit input. -/
theorem claim_C3_witness :
    (digitsOf ("1a2".data)).length ≤ 2 ∧ formatPhone ("1a2".data) = digitsOf ("1a2".data)
    ∧ ("12".data).all isDigitCh = true ∧ ("12".data).length ≤ 2
    ∧ formatPhone ("12".data) = "12".data
    ∧ 3 ≤ (digitsOf ("1234".data)).length ∧ (digitsOf ("1234".data)).length ≤ 6
    ∧ formatPhone ("1234".data) =
        '(' :: (digitsOf ("1234".data)).take 2 ++ ')' :: ' ' :: (digitsOf ("1234".data)).drop 2 :=
  ⟨by decide, claim_C3.1 _ (by decide), by decide, by decide,
    claim_C3.2.1 _ (by decide) (by decide), by decide, by decide,
    claim_C3.2.2 _ (by decide) (by decide)⟩

theorem isFullPhoneShape_build (c : List Char) (h : ∀ x ∈ c, isDigitCh x = true)
    (hl : 11 ≤ c.length) :
    isFullPhoneShape ('(' :: c.take 2 ++ ')' :: ' ' ::
      ((c.drop 2).take 5 ++ '-' :: (c.drop 7).take 4)) = true := by
  rcases c with _|⟨a0,_|⟨a1,_|⟨a2,_|⟨a3,_|⟨a4,_|⟨a5,_|⟨a6,_|⟨a7,_|⟨a8,_|⟨a9,_|⟨a10,rest⟩⟩⟩⟩⟩⟩⟩⟩⟩⟩⟩ <;>
    simp only [List.length_cons, List.length_nil] at hl <;> try omega
  show ([a0, a1, a2, a3, a4, a5, a6, a7, a8, a9, a10].all isDigitCh) = true
  refine List.all_eq_true.mpr fun x hx => ?_
  simp only [List.mem_cons, List.not_mem_nil, or_false] at hx
  rcases hx with rfl|rfl|rfl|rfl|rfl|rfl|rfl|rfl|rfl|rfl|rfl <;> exact h _ (by simp)

/-- C2 counterexample: the input `"1234567"` has a digit count of 7, inside the
claimed 7-to-11 range, yet `formatPhone` returns `"(12) 34567-"`, whose suffix
after the hyphen is empty, so the output does not have the claimed
`(DD) DDDDD-DDDD` shape. -/
theorem claim_C2_counterexample :
    7 ≤ (digitsOf ("1234567".data)).length
    ∧ (digitsOf ("1234567".data)).length ≤ 11
    ∧ formatPhone ("1234567".data) = "(12) 34567-".data
    ∧ isFullPhoneShape (formatPhone ("1234567".data)) = false := by
  decide

/-- C2 amended: whenever at least 7 digits remain after stripping, the output
is `(` ++ digits 0-1 ++ `) ` ++ digits 2-6 ++ `-` ++ digits 7-10, where the
slice after the hyphen holds however many of digits 7-10 exist (so digits
beyond the 11th are silently dropped); the full `(DD) DDDDD-DDDD` shape is
attained exactly by the inputs with at least 11 digits. -/
theorem claim_C2_amended :
    (∀ s : List Char, 7 ≤ (digitsOf s).length →
      formatPhone s = '(' :: (digitsOf s).take 2 ++ ')' :: ' ' ::
        (((digitsOf s).drop 2).take 5 ++ '-' :: ((digitsOf s).drop 7).take 4))
    ∧ (∀ s : List Char, 11 ≤ (digitsOf s).length →
        isFullPhoneShape (formatPhone s) = true) := by
  constructor
  · intro s h7
    rw [formatPhone_eq_fmt]
    unfold fmtDigits
    rw [if_neg (by omega), if_neg (by omega)]
  · intro s h11
    rw [formatPhone_eq_fmt]
    unfold fmtDigits
    rw [if_neg (by omega), if_neg (by omega)]
    exact isFullPhoneShape_build (digitsOf s) (mem_digitsOf_digit s) h11

/-- Witness for the amended C2 at the 11-digit input `"11987654321"` and at the
15-digit input `"119876543219999"` (whose digits beyond the 11th are dropped). -/
theorem claim_C2_amended_witness :
    7 ≤ (digitsOf ("11987654321".data)).length
    ∧ formatPhone ("11987654321".data) =
        '(' :: (digitsOf ("11987654321".data)).take 2 ++ ')' :: ' ' ::
          (((digitsOf ("11987654321".data)).drop 2).take 5 ++
            '-' :: ((digitsOf ("11987654321".data)).drop 7).take 4)
    ∧ 11 ≤ (digitsOf ("119876543219999".data)).length
    ∧ isFullPhoneShape (formatPhone ("119876543219999".data)) = true :=
  ⟨by decide, claim_C2_amended.1 _ (by decide), by decide,
    claim_C2_amended.2 _ (by decide)⟩

/-! ## Helper lemmas about the e-mail recognizer -/

theorem dotBeforeLast_iff (l : List Char) :
    dotBeforeLast l = true ↔ ∃ b c, l = b ++ '.' :: c ∧ c ≠ [] := by
  induction l with
  | nil =>
    simp only [dotBeforeLast]
    constructor
    · intro h
      exact absurd h (by simp)
    · rintro ⟨b, c, hbc, -⟩
      exact absurd hbc.symm (by simp)
  | cons hd tl ih =>
    cases tl with
    | nil =>
      simp only [dotBeforeLast]
      constructor
      · intro h
        exact absurd h (by simp)
      · rintro ⟨b, c, hbc, hc⟩
        rcases b with _ | ⟨x, b⟩
        · simp only [List.nil_append, List.cons.injEq] at hbc
          exact (hc hbc.2.symm).elim
        · simp only [List.cons_append, List.cons.injEq] at hbc
          exact absurd hbc.2.symm (by simp)
    | cons t ts =>
      simp only [dotBeforeLast, Bool.or_eq_true, beq_iff_eq, ih]
      constructor
      · rintro (rfl | ⟨b, c, hbc, hc⟩)
        · exact ⟨[], t :: ts, rfl, by simp⟩
        · exact ⟨hd :: b, c, by rw [hbc, List.cons_append], hc⟩
      · rintro ⟨b, c, hbc, hc⟩
        rcases b with _ | ⟨x, b⟩
        · simp only [List.nil_append, List.cons.injEq] at hbc
          exact Or.inl hbc.1
        · simp only [List.cons_append, List.cons.injEq] at hbc
          exact Or.inr ⟨b, c, hbc.2, hc⟩

theorem domainHasInnerDot_iff (l : List Char) :
    domainHasInnerDot l = true ↔ ∃ b c, l = b ++ '.' :: c ∧ b ≠ [] ∧ c ≠ [] := by
  cases l with
  | nil =>
    simp only [domainHasInnerDot]
    constructor
    · intro h
      exact absurd h (by simp)
    · rintro ⟨b, c, hbc, -, -⟩
      exact absurd hbc.symm (by simp)
  | cons hd tl =>
    simp only [domainHasInnerDot, dotBeforeLast_iff]
    constructor
    · rintro ⟨b, c, hbc, hc⟩
      exact ⟨hd :: b, c, by rw [hbc, List.cons_append], by simp, hc⟩
    · rintro ⟨b, c, hbc, hb, hc⟩
      rcases b with _ | ⟨x, b⟩
      · exact absurd rfl hb
      · simp only [List.cons_append, List.cons.injEq] at hbc
        exact ⟨b, c, hbc.2, hc⟩

theorem checkDomainTail_iff (l : List Char) :
    checkDomainTail l = true ↔
      ∃ b c, l = b ++ '.' :: c ∧ b ≠ [] ∧ c ≠ []
        ∧ (∀ x ∈ b, emailOk x = true) ∧ (∀ x ∈ c, emailOk x = true) := by
  simp only [checkDomainTail, Bool.and_eq_true, List.all_eq_true, domainHasInnerDot_iff]
  constructor
  · rintro ⟨hall, b, c, rfl, hb, hc⟩
    refine ⟨b, c, rfl, hb, hc, fun x hx => hall x ?_, fun x hx => hall x ?_⟩
    · simp [hx]
    · simp [hx]
  · rintro ⟨b, c, rfl, hb, hc, hball, hcall⟩
    refine ⟨fun x hx => ?_, b, c, rfl, hb, hc⟩
    simp only [List.mem_append, List.mem_cons] at hx
    rcases hx with hx | rfl | hx
    · exact hball x hx
    · decide
    · exact hcall x hx

theorem matchLocalRest_iff (t : List Char) :
    matchLocalRest t = true ↔
      ∃ a rest, t = a ++ '@' :: rest ∧ (∀ x ∈ a, emailOk x = true)
        ∧ checkDomainTail rest = true := by
  induction t with
  | nil =>
    simp only [matchLocalRest]
    constructor
    · intro h
      exact absurd h (by simp)
    · rintro ⟨a, rest, har, -, -⟩
      exact absurd har.symm (by simp)
  | cons c cs ih =>
    by_cases hc : c = '@'
    · subst hc
      simp only [matchLocalRest, beq_self_eq_true, if_true]
      constructor
      · intro h
        exact ⟨[], cs, rfl, by simp, h⟩
      · rintro ⟨a, rest, har, hall, hrest⟩
        rcases a with _ | ⟨x, a⟩
        · simp only [List.nil_append, List.cons.injEq] at har
          rw [har.2]
          exact hrest
        · simp only [List.cons_append, List.cons.injEq] at har
          obtain ⟨hx, -⟩ := har
          have h1 : emailOk x = true := hall x (by simp)
          rw [← hx] at h1
          exact absurd h1 (by decide)
    · have hbeq : (c == '@') = false := by
        simp [hc]
      rw [show matchLocalRest (c :: cs) = (emailOk c && matchLocalRest cs) by
        simp [matchLocalRest, hbeq]]
      rw [Bool.and_eq_true, ih]
      constructor
      · rintro ⟨hok, a, rest, rfl, hall, hrest⟩
        refine ⟨c :: a, rest, by rw [List.cons_append], fun x hx => ?_, hrest⟩
        rcases List.mem_cons.mp hx with rfl | hx
        · exact hok
        · exact hall x hx
      · rintro ⟨a, rest, har, hall, hrest⟩
        rcases a with _ | ⟨x, a⟩
        · simp only [List.nil_append, List.cons.injEq] at har
          exact absurd har.1 hc
        · simp only [List.cons_append, List.cons.injEq] at har
          obtain ⟨rfl, hcs⟩ := har
          exact ⟨hall c (List.mem_cons_self c a), a, rest, hcs,
            fun y hy => hall y (List.mem_cons_of_mem c hy), hrest⟩

/-- C5: `validateEmail` accepts exactly the strings made of one or more
characters that are neither whitespace nor `@`, then `@`, then one or more such
characters, then a literal `.`, then one or more such characters; and the three
concrete examples of the spec behave as stated. -/
theorem claim_C5 :
    (∀ s : List Char, validateEmail s = true ↔
      ∃ a b c : List Char, s = a ++ '@' :: (b ++ '.' :: c)
        ∧ a ≠ [] ∧ b ≠ [] ∧ c ≠ []
        ∧ (∀ x ∈ a, emailOk x = true) ∧ (∀ x ∈ b, emailOk x = true)
        ∧ (∀ x ∈ c, emailOk x = true))
    ∧ validateEmail ("a@b.c".data) = true
    ∧ validateEmail ("a@b".data) = false
    ∧ validateEmail ("a.b.com".data) = false := by
  refine ⟨fun s => ?_, by decide, by decide, by decide⟩
  cases s with
  | nil =>
    constructor
    · intro h
      exact absurd h (by decide)
    · rintro ⟨a, b, c, heq, ha, -, -, -⟩
      exact absurd heq.symm (by simp)
  | cons ch cs =>
    rw [show validateEmail (ch :: cs) = (emailOk ch && matchLocalRest cs) from rfl,
      Bool.and_eq_true, matchLocalRest_iff]
    constructor
    · rintro ⟨hok, a, rest, rfl, hall, hdom⟩
      obtain ⟨b, c, rfl, hb, hc, hball, hcall⟩ := (checkDomainTail_iff rest).mp hdom
      refine ⟨ch :: a, b, c, by rw [List.cons_append], by simp, hb, hc,
        fun x hx => ?_, hball, hcall⟩
      rcases List.mem_cons.mp hx with rfl | hx
      · exact hok
      · exact hall x hx
    · rintro ⟨a, b, c, heq, ha, hb, hc, haall, hball, hcall⟩
      rcases a with _ | ⟨x, a⟩
      · exact absurd rfl ha
      · simp only [List.cons_append, List.cons.injEq] at heq
        obtain ⟨rfl, hcs⟩ := heq
        refine ⟨haall ch (List.mem_cons_self ch a), a, b ++ '.' :: c, hcs,
          fun y hy => haall y (List.mem_cons_of_mem ch hy),
          (checkDomainTail_iff _).mpr ⟨b, c, rfl, hb, hc, hball, hcall⟩⟩

/-! ## Helper lemmas about `validateForm` -/

theorem validateForm_eq (d : FormData) :
    validateForm d =
      if nameError d = none ∧ phoneError d = none ∧ emailError d = none ∧
          passwordError d = none
      then none
      else some { name := nameError d, phone := phoneError d
                  email := emailError d, password := passwordError d } := by
  unfold validateForm
  by_cases h1 : nameError d = none <;> by_cases h2 : phoneError d = none <;>
    by_cases h3 : emailError d = none <;> by_cases h4 : passwordError d = none <;>
    simp [Bool.and_eq_true, Option.isNone_iff_eq_none, h1, h2, h3, h4]

theorem validateForm_none_iff (d : FormData) :
    validateForm d = none ↔
      nameError d = none ∧ phoneError d = none ∧ emailError d = none ∧
        passwordError d = none := by
  rw [validateForm_eq]
  split
  next h => simp [h]
  next h => simp [h]

theorem nameError_none_iff (d : FormData) :
    nameError d = none ↔ trimL d.name ≠ [] := by
  unfold nameError
  split <;> simp_all

theorem phoneError_none_iff (d : FormData) :
    phoneError d = none ↔ trimL d.phone ≠ [] := by
  unfold phoneError
  split <;> simp_all

theorem emailError_none_iff (d : FormData) :
    emailError d = none ↔ trimL d.email ≠ [] ∧ validateEmail d.email = true := by
  unfold emailError
  by_cases h1 : trimL d.email = [] <;> by_cases h2 : validateEmail d.email = true <;>
    simp [h1, h2]

theorem passwordError_none_iff (d : FormData) :
    passwordError d = none ↔ trimL d.password ≠ [] ∧ ¬ d.password.length < 6 := by
  unfold passwordError
  by_cases h1 : trimL d.password = [] <;> by_cases h2 : d.password.length < 6 <;>
    simp [h1, h2]

/-- C1: `validateForm` checks each field independently — name and phone are
required after trimming; email is required and, when present, must pass the
syntax check; password is required and, when present, must have length at
least 6. It returns `none` exactly when no rule fails, otherwise a map with
entries exactly for the failing fields; the all-empty form fails all four
rules and the given valid form passes. -/
theorem claim_C1 :
    (∀ d : FormData,
      (validateForm d = none ↔
        trimL d.name ≠ [] ∧ trimL d.phone ≠ []
          ∧ (trimL d.email ≠ [] ∧ validateEmail d.email = true)
          ∧ (trimL d.password ≠ [] ∧ ¬ d.password.length < 6))
      ∧ ∀ e : FormErrors, validateForm d = some e →
          e.name = (if trimL d.name = [] then some msgNameRequired else none)
          ∧ e.phone = (if trimL d.phone = [] then some msgPhoneRequired else none)
          ∧ e.email = (if trimL d.email = [] then some msgEmailRequired
              else if validateEmail d.email then none else some msgEmailInvalid)
          ∧ e.password = (if trimL d.password = [] then some msgPasswordRequired
              else if d.password.length < 6 then some msgPasswordShort else none))
    ∧ validateForm { name := [], phone := [], email := [], password := [] } =
        some { name := some msgNameRequired, phone := some msgPhoneRequired
               email := some msgEmailRequired, password := some msgPasswordRequired }
    ∧ validateForm { name := "Jo".data, phone := "11999999999".data
                     email := "jo@x.com".data, password := "123456".data } = none := by
  refine ⟨fun d => ⟨?_, ?_⟩, by decide, by decide⟩
  · rw [validateForm_none_iff]
    exact and_congr (nameError_none_iff d) (and_congr (phoneError_none_iff d)
      (and_congr (emailError_none_iff d) (passwordError_none_iff d)))
  · intro e he
    rw [validateForm_eq] at he
    split at he
    · exact (Option.noConfusion he)
    · injection he with h
      subst h
      exact ⟨rfl, rfl, rfl, rfl⟩

/-- Witness for C1 at a concrete form whose only failing field is the e-mail:
the error map has an entry exactly for the e-mail field. -/
theorem claim_C1_witness :
    validateForm { name := "Jo".data, phone := "1".data
                   email := "bad-email".data, password := "123456".data } =
      some { name := none, phone := none, email := some msgEmailInvalid, password := none }
    ∧ ({ name := none, phone := none, email := some msgEmailInvalid,
         password := none : FormErrors }).email =
        (if trimL ("bad-email".data) = [] then some msgEmailRequired
         else if validateEmail ("bad-email".data) then none else some msgEmailInvalid) :=
  ⟨by decide,
    ((claim_C1.1 { name := "Jo".data, phone := "1".data
                   email := "bad-email".data, password := "123456".data }).2
      { name := none, phone := none, email := some msgEmailInvalid, password := none }
      (by decide)).2.2.1⟩

/-! ## Controller claims -/

/-- C7: `updateField` stores `formatPhone rawValue` for the phone field and the
raw value unchanged for every other field, always removes the error entry of
the edited field, and concretely typing `"11987654321"` into the phone field
stores `"(11) 98765-4321"`. -/
theorem claim_C7 :
    (∀ (s : AppState) (v : List Char),
      (updateField s .phone v).formData.phone = formatPhone v)
    ∧ (∀ (s : AppState) (v : List Char),
        (updateField s .name v).formData.name = v)
    ∧ (∀ (s : AppState) (v : List Char),
        (updateField s .email v).formData.email = v)
    ∧ (∀ (s : AppState) (v : List Char),
        (updateField s .password v).formData.password = v)
    ∧ (∀ (s : AppState) (f : FieldName) (v : List Char),
        getError (updateField s f v).formErrors f = none)
    ∧ (updateField initialState .phone ("11987654321".data)).formData.phone =
        "(11) 98765-4321".data := by
  refine ⟨fun s v => rfl, fun s v => rfl, fun s v => rfl, fun s v => rfl,
    fun s f v => ?_, by decide⟩
  cases f <;> rfl

/-- C6: when `validateForm` reports errors, `handleSubmit` stores them, shows
the validation-error modal whose message is the first error in field order
`name, phone, email, password`, reaches no submission call, and leaves the
loading flag unchanged (hence false when starting from the idle state); the
first error is the `orElse` chain over the fields in that order, so a name
error wins over an e-mail error. -/
theorem claim_C6 :
    (∀ (s : AppState) (o : SubmissionOutcome) (errs : FormErrors),
      validateForm s.formData = some errs →
        handleSubmit s o =
          ({ s with formErrors := errs
                    modal := { isVisible := true, title := validationErrorTitle
                               message := (firstErrorMessage errs).getD "" } }, false)
        ∧ (handleSubmit s o).1.loading = s.loading)
    ∧ (∀ e : FormErrors,
        firstErrorMessage e =
          (e.name.orElse fun _ => (e.phone.orElse fun _ =>
            (e.email.orElse fun _ => e.password))))
    ∧ (∀ (e : FormErrors) (m : String), e.name = some m → firstErrorMessage e = some m) := by
  refine ⟨fun s o errs h => ?_, fun e => ?_, fun e m h => ?_⟩
  · have he : handleSubmit s o =
        ({ s with formErrors := errs
                  modal := { isVisible := true, title := validationErrorTitle
                             message := (firstErrorMessage errs).getD "" } }, false) := by
      unfold handleSubmit
      rw [h]
      rfl
    exact ⟨he, by rw [he]⟩
  · rcases e with ⟨n, p, em, pw⟩
    cases n <;> cases p <;> cases em <;> cases pw <;> rfl
  · rcases e with ⟨n, p, em, pw⟩
    cases h
    rfl

/-- Witness for C6 at a state whose name is empty and whose e-mail is invalid:
the modal message is the name-required error, which wins the field-order
tie-break over the e-mail error. -/
theorem claim_C6_witness :
    validateForm ({ formData := { name := [], phone := "1".data
                                  email := "bad".data, password := "123456".data }
                    formErrors := noErrors, loading := false
                    modal := { isVisible := false, title := "", message := "" } :
        AppState }).formData =
      some { name := some msgNameRequired, phone := none
             email := some msgEmailInvalid, password := none }
    ∧ handleSubmit
        { formData := { name := [], phone := "1".data
                        email := "bad".data, password := "123456".data }
          formErrors := noErrors, loading := false
          modal := { isVisible := false, title := "", message := "" } }
        SubmissionOutcome.success =
      ({ formData := { name := [], phone := "1".data
                       email := "bad".data, password := "123456".data }
         formErrors := { name := some msgNameRequired, phone := none
                         email := some msgEmailInvalid, password := none }
         loading := false
         modal := { isVisible := true, title := validationErrorTitle
                    message := msgNameRequired } }, false) := by
  have h : validateForm ({ name := [], phone := "1".data
                           email := "bad".data, password := "123456".data } : FormData) =
      some { name := some msgNameRequired, phone := none
             email := some msgEmailInvalid, password := none } := by decide
  refine ⟨h, ?_⟩
  have := (claim_C6.1
    { formData := { name := [], phone := "1".data
                    email := "bad".data, password := "123456".data }
      formErrors := noErrors, loading := false
      modal := { isVisible := false, title := "", message := "" } }
    SubmissionOutcome.success
    { name := some msgNameRequired, phone := none
      email := some msgEmailInvalid, password := none } h).1
  rw [this]
  decide

/-- C8: no path of `handleSubmit` (validation failure, simulated server
failure, or success) changes the form fields, and `hideModal` resets the
fields and the error map to their initial empty state exactly when the
dismissed modal carries the success title, otherwise it only hides the
modal. -/
theorem claim_C8 :
    (∀ (s : AppState) (o : SubmissionOutcome),
      ((handleSubmit s o).1).formData = s.formData)
    ∧ (∀ s : AppState,
        hideModal s =
          if s.modal.title = successTitle then
            { formData := initialFormData, formErrors := noErrors, loading := s.loading
              modal := { isVisible := false, title := s.modal.title
                         message := s.modal.message } }
          else { s with modal := { s.modal with isVisible := false } }) := by
  constructor
  · intro s o
    unfold handleSubmit
    rcases hv : validateForm s.formData with _ | errs
    · cases o <;> rfl
    · rfl
  · intro s
    unfold hideModal
    by_cases ht : s.modal.title = successTitle <;> simp [ht]

/-- C9: the submission simulator resolves success exactly when the random draw
exceeds 0.1, otherwise rejects with the simulated-server-error reason; the
outcome and the fixed delay are independent of the submitted fields; and under
the uniform distribution of `Math.random()` on `[0,1)` the success region has
measure 9/10 and the failure region measure 1/10. -/
theorem claim_C9 :
    (∀ (d : FormData) (r : ℚ),
      submitForm d r = SubmissionOutcome.success ↔ 1/10 < r)
    ∧ (∀ (d : FormData) (r : ℚ), ¬ (1/10 < r) →
        submitForm d r = SubmissionOutcome.failure simulatedFailureReason)
    ∧ (∀ (d1 d2 : FormData) (r : ℚ), submitForm d1 r = submitForm d2 r)
    ∧ (∀ d1 d2 : FormData, submitDelayFor d1 = submitDelayFor d2)
    ∧ MeasureTheory.volume {x : ℝ | x ∈ Set.Ico (0 : ℝ) 1 ∧ 1/10 < x} =
        ENNReal.ofReal (9/10)
    ∧ MeasureTheory.volume {x : ℝ | x ∈ Set.Ico (0 : ℝ) 1 ∧ ¬ 1/10 < x} =
        ENNReal.ofReal (1/10) := by
  refine ⟨fun d r => ?_, fun d r h => ?_, fun d1 d2 r => rfl, fun d1 d2 => rfl, ?_, ?_⟩
  · unfold submitForm
    by_cases h : (1 : ℚ)/10 < r <;> simp [h]
  · unfold submitForm
    rw [if_neg h]
  · have hs : {x : ℝ | x ∈ Set.Ico (0 : ℝ) 1 ∧ 1/10 < x} = Set.Ioo (1/10 : ℝ) 1 := by
      ext x
      simp only [Set.mem_setOf_eq, Set.mem_Ico, Set.mem_Ioo]
      constructor
      · rintro ⟨⟨h0, h1⟩, h2⟩
        exact ⟨h2, h1⟩
      · rintro ⟨h2, h1⟩
        exact ⟨⟨le_trans (by norm_num) h2.le, h1⟩, h2⟩
    rw [hs, Real.volume_Ioo]
    norm_num
  · have hs : {x : ℝ | x ∈ Set.Ico (0 : ℝ) 1 ∧ ¬ 1/10 < x} = Set.Icc (0 : ℝ) (1/10) := by
      ext x
      simp only [Set.mem_setOf_eq, Set.mem_Ico, Set.mem_Icc, not_lt]
      constructor
      · rintro ⟨⟨h0, h1⟩, h2⟩
        exact ⟨h0, h2⟩
      · rintro ⟨h0, h2⟩
        exact ⟨⟨h0, lt_of_le_of_lt h2 (by norm_num)⟩, h2⟩
    rw [hs, Real.volume_Icc]
    norm_num

/-- Witness for C9 at the concrete draws 1/20 (failure region) and 1/2
(success region). -/
theorem claim_C9_witness :
    ¬ ((1 : ℚ)/10 < 1/20)
    ∧ submitForm initialFormData (1/20) = SubmissionOutcome.failure simulatedFailureReason
    ∧ (submitForm initialFormData (1/2) = SubmissionOutcome.success ↔ (1 : ℚ)/10 < 1/2) :=
  ⟨by norm_num, claim_C9.2.1 initialFormData (1/20) (by norm_num),
    claim_C9.1 initialFormData (1/2)⟩

/-! ## Password trimming asymmetry (C10) -/

theorem trimL_eq_nil_of_all (s : List Char)
    (h : ∀ x ∈ s, isJsWhitespace x = true) : trimL s = [] := by
  unfold trimL trimEndL
  have h1 : s.dropWhile isJsWhitespace = [] := by
    rw [List.dropWhile_eq_nil_iff]
    exact fun x hx => h x hx
  rw [h1]
  rfl

theorem passwordErrorOf_eq (d : FormData) : passwordErrorOf d = passwordError d := by
  unfold passwordErrorOf
  rw [validateForm_eq]
  by_cases h : nameError d = none ∧ phoneError d = none ∧ emailError d = none ∧
      passwordError d = none
  · rw [if_pos h]
    exact h.2.2.2.symm
  · rw [if_neg h]

/-- C10: the password emptiness check trims while the length check does not —
a whitespace-only password of any length yields exactly the required-password
error, and any password whose untrimmed length is at least 6 can never get the
too-short error; in particular `"12345 "` produces no password error at all. -/
theorem claim_C10 :
    (∀ d : FormData, (∀ x ∈ d.password, isJsWhitespace x = true) →
      passwordErrorOf d = some msgPasswordRequired)
    ∧ (∀ d : FormData, 6 ≤ d.password.length →
        passwordErrorOf d ≠ some msgPasswordShort)
    ∧ passwordErrorOf { name := "A".data, phone := "1".data
                        email := "a@b.c".data, password := "12345 ".data } = none := by
  refine ⟨fun d h => ?_, fun d h6 => ?_, by decide⟩
  · rw [passwordErrorOf_eq]
    unfold passwordError
    rw [if_pos (trimL_eq_nil_of_all _ h)]
  · rw [passwordErrorOf_eq]
    unfold passwordError
    split
    · intro heq
      exact absurd (Option.some.inj heq) (by decide)
    · split
      next hlt => exact absurd hlt (by omega)
      next => simp

/-- Witness for C10 at a six-space password (required error only) and at the
password `"12345 "` of untrimmed length 6 (no too-short error). -/
theorem claim_C10_witness :
    (∀ x ∈ ("      ".data), isJsWhitespace x = true)
    ∧ passwordErrorOf { name := [], phone := [], email := []
                        password := "      ".data } = some msgPasswordRequired
    ∧ 6 ≤ ("12345 ".data).length
    ∧ passwordErrorOf { name := "A".data, phone := "1".data
                        email := "a@b.c".data, password := "12345 ".data } ≠
        some msgPasswordShort :=
  ⟨by decide, claim_C10.1 _ (by decide), by decide, claim_C10.2.1 _ (by decide)⟩
